import Mathlib

/-!
# Verification of the Super-Simple-Logger (TypeScript) against its specification

Shallow embedding of `src/logger.ts` and the second source file
(sync logger `createLogger` and async logger `createAsyncLogger`).

Strings are modelled as `List Char`.  A JavaScript string value is its
character list; `String.toList "..."` produces concrete literals.

`template.replace(pat, rep)` (with a string search value) is modelled
faithfully, including JavaScript's `GetSubstitution` treatment of the
replacement string, where the two-character sequences starting with
a dollar sign are special (dollar-dollar, dollar-ampersand,
dollar-backquote, dollar-quote).

The wall clock (`new Date().toISOString()`) is modelled by passing the
current timestamp string `now` as an explicit oracle argument; the field
`clockReads` of `CallEffect` counts how many times the clock was read.
The output sink is modelled by a function returning `Except ε Unit`:
`Except.ok ()` is a normal return (resp. a successfully resolved promise),
`Except.error e` is a thrown error (resp. a rejected promise).  The field
`sinkCalls` records the argument of each sink invocation, in order.
-/

set_option autoImplicit false

/-- The log levels of `enum LogLevel` in the source,
`ERROR = 0, WARN = 1, INFO = 2, DEBUG = 3, TRACE = 4`. -/
inductive LogLevel : Type
  | error
  | warn
  | info
  | debug
  | trace
deriving DecidableEq, Repr

/-- The numeric value of each enum member of `LogLevel` in the source. -/
def LogLevel.toNat : LogLevel → Nat
  | .error => 0
  | .warn  => 1
  | .info  => 2
  | .debug => 3
  | .trace => 4

/-- The fixed level-to-display-name table `LogLevelStr` of the source. -/
def LogLevelStr : LogLevel → List Char
  | .error => String.toList "ERROR"
  | .warn  => String.toList "WARN"
  | .info  => String.toList "INFO"
  | .debug => String.toList "DEBUG"
  | .trace => String.toList "TRACE"

/-- `const defaultLoggerFormat = '[level=$logLevel, module=$moduleName, $formattedTimestamp]: $message'`. -/
def defaultLoggerFormat : List Char :=
  String.toList "[level=$logLevel, module=$moduleName, $formattedTimestamp]: $message"

/-- Splits `s` at the first occurrence of `pat`: returns `some (before, after)`
with `s = before ++ pat ++ after` and `before` shortest possible, or `none`
when `pat` does not occur in `s`.  This models the search performed by
JavaScript `String.prototype.replace` with a string search value
(`indexOf` of the first occurrence). -/
def firstOccSplit (pat : List Char) : List Char → Option (List Char × List Char)
  | [] => if pat.isPrefixOf ([] : List Char) then some ([], []) else none
  | c :: rest =>
    if pat.isPrefixOf (c :: rest) then some ([], (c :: rest).drop pat.length)
    else (firstOccSplit pat rest).map fun p => (c :: p.1, p.2)

/-- JavaScript `GetSubstitution` for a string search value (no capture groups):
interprets the replacement string, where a dollar sign followed by a second
dollar sign inserts a dollar sign, followed by an ampersand inserts the
matched substring, followed by a backquote (code 96) inserts the portion of
the subject before the match, and followed by a quote (code 39) inserts the
portion after the match; every other character is copied verbatim. -/
def getSubstitution (matched before after : List Char) : List Char → List Char
  | [] => []
  | [c] => [c]
  | c :: d :: rest =>
    if c = '$' then
      if d = '$' then '$' :: getSubstitution matched before after rest
      else if d = '&' then matched ++ getSubstitution matched before after rest
      else if d = Char.ofNat 96 then before ++ getSubstitution matched before after rest
      else if d = Char.ofNat 39 then after ++ getSubstitution matched before after rest
      else c :: getSubstitution matched before after (d :: rest)
    else c :: getSubstitution matched before after (d :: rest)

/-- JavaScript `s.replace(pat, rep)` with a string search value `pat`:
replaces the first occurrence of `pat` in `s` by the interpretation of the
replacement string `rep` (see `getSubstitution`); returns `s` unchanged when
`pat` does not occur. -/
def replaceJS (s pat rep : List Char) : List Char :=
  match firstOccSplit pat s with
  | none => s
  | some (bef, aft) => bef ++ getSubstitution pat bef aft rep ++ aft

/-- The source's `formatString(template, parameters)`:
`Object.keys(parameters).reduce((template, key) => template.replace('$' + key, parameters[key]), template)`.
The parameter object is modelled as an association list in its key
iteration order (for the logger's parameter object, insertion order, since
none of its keys is integer-like). -/
def formatString (template : List Char) (parameters : List (List Char × List Char)) : List Char :=
  parameters.foldl (fun t kv => replaceJS t ('$' :: kv.1) kv.2) template

/-- Modelled from the spec's words (section 4.1), for comparison with the
source's `formatString`: replace the first occurrence of the search string
by the replacement string taken verbatim (literal first-occurrence
replacement, no replacement-pattern interpretation). -/
def replaceFirstLiteral (s pat rep : List Char) : List Char :=
  match firstOccSplit pat s with
  | none => s
  | some (bef, aft) => bef ++ rep ++ aft

/-- Modelled from the spec's words (section 4.1), for comparison with the
source's `formatString`: for every key in iteration order, replace the
first occurrence of the dollar-prefixed key by the key's string value. -/
def formatStringSpec (template : List Char) (parameters : List (List Char × List Char)) : List Char :=
  parameters.foldl (fun t kv => replaceFirstLiteral t ('$' :: kv.1) kv.2) template

/-- The parameter object built by `logFormattedMessage` (identical in the
sync and async variants): keys `moduleName`, `formattedTimestamp`,
`logLevel`, `message` in insertion order, which is also their
`Object.keys` iteration order. -/
def loggerParameters (moduleName now : List Char) (logLevel : LogLevel) (message : List Char) :
    List (List Char × List Char) :=
  [(String.toList "moduleName", moduleName),
   (String.toList "formattedTimestamp", now),
   (String.toList "logLevel", LogLevelStr logLevel),
   (String.toList "message", message)]

/-- The observable effect of one logging call: how many times the clock
(`new Date()`) was read, the arguments of the sink invocations in order,
and the call's outcome (normal return / resolved promise versus thrown
error / rejected promise). -/
structure CallEffect (ε : Type) where
  clockReads : Nat
  sinkCalls : List (List Char)
  result : Except ε Unit

/-- Inner `logFormattedMessage` of `createLogger` in `src/logger.ts`
(closure arguments `format` and `outputSink` lambda-lifted, the clock
value passed as the oracle argument `now`). -/
def Sync.logFormattedMessage {ε : Type} (outputSink : List Char → Except ε Unit)
    (format : List Char) (logLevel : LogLevel) (moduleName message now : List Char) :
    CallEffect ε :=
  let formattedMessage := formatString format (loggerParameters moduleName now logLevel message)
  { clockReads := 1, sinkCalls := [formattedMessage], result := outputSink formattedMessage }

/-- Inner `filterAndLogMessage` of `createLogger` in `src/logger.ts`:
emit through `logFormattedMessage` when `requiredLogLevel <= currentLogLevel`,
otherwise do nothing and return normally. -/
def Sync.filterAndLogMessage {ε : Type} (outputSink : List Char → Except ε Unit)
    (format : List Char) (currentLogLevel : LogLevel) (moduleName : List Char)
    (requiredLogLevel : LogLevel) (message now : List Char) : CallEffect ε :=
  if requiredLogLevel.toNat ≤ currentLogLevel.toNat then
    Sync.logFormattedMessage outputSink format requiredLogLevel moduleName message now
  else
    { clockReads := 0, sinkCalls := [], result := Except.ok () }

/-- The object returned by the synchronous `createLogger`: five
level-specific methods. -/
structure Sync.Logger (ε : Type) where
  error : List Char → List Char → CallEffect ε
  warn : List Char → List Char → CallEffect ε
  info : List Char → List Char → CallEffect ε
  debug : List Char → List Char → CallEffect ε
  trace : List Char → List Char → CallEffect ε

/-- Body of `createLogger` in `src/logger.ts`: partially applies
`filterAndLogMessage` to the configuration and binds each method to its
fixed level constant.  (Resolution of the defaulted arguments is modelled
separately by `createLogger` below.) -/
def Sync.createLogger {ε : Type} (moduleName : List Char) (logLevel : LogLevel)
    (format : List Char) (outputSink : List Char → Except ε Unit) : Sync.Logger ε :=
  let applied := Sync.filterAndLogMessage outputSink format logLevel moduleName
  { error := applied .error
    warn := applied .warn
    info := applied .info
    debug := applied .debug
    trace := applied .trace }

/-- Selects the level-`l` method of a synchronous logger. -/
def Sync.Logger.method {ε : Type} (lg : Sync.Logger ε) : LogLevel → List Char → List Char → CallEffect ε
  | .error => lg.error
  | .warn  => lg.warn
  | .info  => lg.info
  | .debug => lg.debug
  | .trace => lg.trace

/-- Inner `logFormattedMessage` of `createAsyncLogger` in the second source
file: formats synchronously and returns the deferred value produced by the
sink (`return outputSink(formattedMessage)`). -/
def Async.logFormattedMessage {ε : Type} (outputSink : List Char → Except ε Unit)
    (format : List Char) (logLevel : LogLevel) (moduleName message now : List Char) :
    CallEffect ε :=
  let formattedMessage := formatString format (loggerParameters moduleName now logLevel message)
  { clockReads := 1, sinkCalls := [formattedMessage], result := outputSink formattedMessage }

/-- Inner `filterAndLogMessage` of `createAsyncLogger`: when suppressed it
executes `return (async () => {})()`, an immediately and successfully
resolved deferred value, with no clock read and no sink invocation. -/
def Async.filterAndLogMessage {ε : Type} (outputSink : List Char → Except ε Unit)
    (format : List Char) (currentLogLevel : LogLevel) (moduleName : List Char)
    (requiredLogLevel : LogLevel) (message now : List Char) : CallEffect ε :=
  if requiredLogLevel.toNat ≤ currentLogLevel.toNat then
    Async.logFormattedMessage outputSink format requiredLogLevel moduleName message now
  else
    { clockReads := 0, sinkCalls := [], result := Except.ok () }

/-- The object returned by `createAsyncLogger`: five level-specific
methods, each returning a deferred completion. -/
structure Async.Logger (ε : Type) where
  error : List Char → List Char → CallEffect ε
  warn : List Char → List Char → CallEffect ε
  info : List Char → List Char → CallEffect ε
  debug : List Char → List Char → CallEffect ε
  trace : List Char → List Char → CallEffect ε

/-- Body of `createAsyncLogger` in the second source file. -/
def Async.createAsyncLogger {ε : Type} (moduleName : List Char) (logLevel : LogLevel)
    (format : List Char) (outputSink : List Char → Except ε Unit) : Async.Logger ε :=
  let applied := Async.filterAndLogMessage outputSink format logLevel moduleName
  { error := applied .error
    warn := applied .warn
    info := applied .info
    debug := applied .debug
    trace := applied .trace }

/-- Selects the level-`l` method of an asynchronous logger. -/
def Async.Logger.method {ε : Type} (lg : Async.Logger ε) : LogLevel → List Char → List Char → CallEffect ε
  | .error => lg.error
  | .warn  => lg.warn
  | .info  => lg.info
  | .debug => lg.debug
  | .trace => lg.trace

/-- `const consoleLoggerSink = (message) => console.log(message)`: writes
the line to standard output; the returned list is the stdout trace. -/
def consoleLoggerSink (message : List Char) : List (List Char) :=
  [message]

/-- The configuration captured by the synchronous `createLogger` after its
defaulted arguments are resolved. -/
structure LoggerConfig where
  moduleName : List Char
  logLevel : LogLevel
  format : List Char
  outputSink : List Char → List (List Char)

/-- The configuration captured by `createAsyncLogger` after its defaulted
arguments are resolved; the sink parameter has no default. -/
structure AsyncLoggerConfig (ε : Type) where
  moduleName : List Char
  logLevel : LogLevel
  format : List Char
  outputSink : List Char → Except ε Unit

/-- Argument resolution of `createLogger(moduleName = 'GLOBAL', logLevel =
LogLevel.INFO, format = defaultLoggerFormat, outputSink = consoleLoggerSink)`:
a missing (undefined) argument, modelled as `none`, is replaced by its
default value. -/
def createLogger (moduleName : Option (List Char)) (logLevel : Option LogLevel)
    (format : Option (List Char)) (outputSink : Option (List Char → List (List Char))) :
    LoggerConfig :=
  { moduleName := moduleName.getD (String.toList "GLOBAL")
    logLevel := logLevel.getD LogLevel.info
    format := format.getD defaultLoggerFormat
    outputSink := outputSink.getD consoleLoggerSink }

/-- Argument resolution of `createAsyncLogger(moduleName = 'GLOBAL',
logLevel = LogLevel.INFO, format = defaultLoggerFormat, outputSink)`:
the first three arguments have the same defaults as the synchronous
variant; the sink parameter has no default and must be supplied. -/
def createAsyncLogger (ε : Type) (moduleName : Option (List Char)) (logLevel : Option LogLevel)
    (format : Option (List Char)) (outputSink : List Char → Except ε Unit) :
    AsyncLoggerConfig ε :=
  { moduleName := moduleName.getD (String.toList "GLOBAL")
    logLevel := logLevel.getD LogLevel.info
    format := format.getD defaultLoggerFormat
    outputSink := outputSink }

/-! ## Helper lemmas about `firstOccSplit`, `getSubstitution` and `replaceJS` -/

theorem isPrefixOf_append_self (l t : List Char) : l.isPrefixOf (l ++ t) = true := by
  induction l with
  | nil => simp [List.isPrefixOf]
  | cons c cs ih => simp [List.isPrefixOf, ih]

theorem eq_append_drop_of_isPrefixOf :
    ∀ (l s : List Char), l.isPrefixOf s = true → s = l ++ s.drop l.length
  | [], _, _ => rfl
  | _ :: _, [], h => by simp [List.isPrefixOf] at h
  | a :: as, b :: bs, h => by
    simp only [List.isPrefixOf, Bool.and_eq_true, beq_iff_eq] at h
    obtain ⟨rfl, h2⟩ := h
    exact congrArg (a :: ·) (eq_append_drop_of_isPrefixOf as bs h2)

theorem firstOccSplit_self_append (pat x : List Char) :
    firstOccSplit pat (pat ++ x) = some ([], x) := by
  cases pat with
  | nil =>
    cases x with
    | nil => simp [firstOccSplit, List.isPrefixOf]
    | cons c rest => simp [firstOccSplit, List.isPrefixOf]
  | cons p ps =>
    rw [List.cons_append, firstOccSplit, if_pos]
    · rw [← List.cons_append, List.drop_left]
    · rw [← List.cons_append]
      exact isPrefixOf_append_self _ _

theorem firstOccSplit_append_of_head_not_mem (c : Char) (pat t : List Char) :
    ∀ (a : List Char), c ∉ a →
      firstOccSplit (c :: pat) (a ++ t)
        = (firstOccSplit (c :: pat) t).map fun p => (a ++ p.1, p.2) := by
  intro a
  induction a with
  | nil =>
    intro _
    rw [List.nil_append]
    cases firstOccSplit (c :: pat) t <;> simp
  | cons x a' ih =>
    intro h
    have hcx : (c == x) = false := by
      simp only [beq_eq_false_iff_ne]
      rintro rfl
      exact h (List.mem_cons_self ..)
    have hpre : ¬ ((c :: pat).isPrefixOf (x :: (a' ++ t)) = true) := by
      simp [List.isPrefixOf, hcx]
    rw [List.cons_append, firstOccSplit, if_neg hpre,
        ih (fun hm => h (List.mem_cons_of_mem _ hm))]
    cases firstOccSplit (c :: pat) t <;> simp

theorem firstOccSplit_eq_none (pat : List Char) :
    ∀ (s : List Char), (∀ p q : List Char, s ≠ p ++ pat ++ q) → firstOccSplit pat s = none := by
  intro s
  induction s with
  | nil =>
    intro h
    rw [firstOccSplit, if_neg]
    intro hpre
    exact h [] [] (by simpa using eq_append_drop_of_isPrefixOf pat [] hpre)
  | cons x rest ih =>
    intro h
    rw [firstOccSplit, if_neg, ih (fun p q hq => h (x :: p) q (by simpa using hq)),
        Option.map_none']
    intro hpre
    exact h [] ((x :: rest).drop pat.length)
      (by simpa using eq_append_drop_of_isPrefixOf pat (x :: rest) hpre)

theorem getSubstitution_of_not_mem (m b a : List Char) :
    ∀ (rep : List Char), '$' ∉ rep → getSubstitution m b a rep = rep := by
  intro rep
  induction rep with
  | nil => intro _; rfl
  | cons c rest ih =>
    intro h
    have hc : c ≠ '$' := by
      rintro rfl
      exact h (List.mem_cons_self ..)
    cases rest with
    | nil => rfl
    | cons d rs =>
      rw [getSubstitution, if_neg hc]
      exact congrArg (c :: ·) (ih (fun hm => h (List.mem_cons_of_mem _ hm)))

theorem replaceJS_eq_literal (s pat rep : List Char) (h : '$' ∉ rep) :
    replaceJS s pat rep = replaceFirstLiteral s pat rep := by
  rw [replaceJS, replaceFirstLiteral]
  cases hs : firstOccSplit pat s with
  | none => rfl
  | some p =>
    obtain ⟨bef, aft⟩ := p
    show bef ++ getSubstitution pat bef aft rep ++ aft = bef ++ rep ++ aft
    rw [getSubstitution_of_not_mem pat bef aft rep h]

theorem formatString_eq_spec (ps : List (List Char × List Char)) :
    ∀ (t : List Char), (∀ kv ∈ ps, '$' ∉ kv.2) → formatString t ps = formatStringSpec t ps := by
  induction ps with
  | nil => intro t _; rfl
  | cons kv rest ih =>
    intro t h
    rw [formatString, List.foldl_cons, formatStringSpec, List.foldl_cons,
        replaceJS_eq_literal _ _ _ (h kv (List.mem_cons_self ..))]
    exact ih _ (fun kv' hm => h kv' (List.mem_cons_of_mem _ hm))

theorem replaceFirstLiteral_mid (c : Char) (pat' a x rep : List Char) (h : c ∉ a) :
    replaceFirstLiteral (a ++ ((c :: pat') ++ x)) (c :: pat') rep = a ++ (rep ++ x) := by
  have h1 : firstOccSplit (c :: pat') (a ++ ((c :: pat') ++ x)) = some (a, x) := by
    rw [firstOccSplit_append_of_head_not_mem c pat' ((c :: pat') ++ x) a h,
        firstOccSplit_self_append]
    simp
  rw [replaceFirstLiteral, h1]
  simp [List.append_assoc]

theorem formatStringSpec_default (now : List Char) (hnow : '$' ∉ now) :
    formatStringSpec defaultLoggerFormat
      (loggerParameters (String.toList "MAIN") now LogLevel.info (String.toList "hello"))
      = String.toList "[level=INFO, module=MAIN, " ++ now ++ String.toList "]: hello" := by
  have s1 : replaceFirstLiteral defaultLoggerFormat ('$' :: String.toList "moduleName")
      (String.toList "MAIN")
      = String.toList "[level=$logLevel, module=MAIN, $formattedTimestamp]: $message" := by
    decide
  have hsplit2 : firstOccSplit ('$' :: String.toList "formattedTimestamp")
      (String.toList "[level=$logLevel, module=MAIN, $formattedTimestamp]: $message")
      = some (String.toList "[level=$logLevel, module=MAIN, ", String.toList "]: $message") := by
    decide
  have s2 : replaceFirstLiteral
      (String.toList "[level=$logLevel, module=MAIN, $formattedTimestamp]: $message")
      ('$' :: String.toList "formattedTimestamp") now
      = String.toList "[level=$logLevel, module=MAIN, " ++ (now ++ String.toList "]: $message") := by
    rw [replaceFirstLiteral, hsplit2]
    simp [List.append_assoc]
  have e3 : String.toList "[level=$logLevel, module=MAIN, "
      = String.toList "[level=" ++ (('$' :: String.toList "logLevel") ++ String.toList ", module=MAIN, ") := by
    decide
  have s3 : replaceFirstLiteral
      (String.toList "[level=$logLevel, module=MAIN, " ++ (now ++ String.toList "]: $message"))
      ('$' :: String.toList "logLevel") (String.toList "INFO")
      = String.toList "[level=" ++ (String.toList "INFO"
          ++ (String.toList ", module=MAIN, " ++ (now ++ String.toList "]: $message"))) := by
    rw [e3]
    rw [show (String.toList "[level=" ++ (('$' :: String.toList "logLevel")
          ++ String.toList ", module=MAIN, ")) ++ (now ++ String.toList "]: $message")
        = String.toList "[level=" ++ (('$' :: String.toList "logLevel")
          ++ (String.toList ", module=MAIN, " ++ (now ++ String.toList "]: $message")))
      from by simp [List.append_assoc]]
    rw [replaceFirstLiteral_mid '$' (String.toList "logLevel") _ _ _ (by decide)]
  have e4 : String.toList "]: $message"
      = String.toList "]: " ++ (('$' :: String.toList "message") ++ ([] : List Char)) := by
    decide
  have ha : '$' ∉ (String.toList "[level=" ++ (String.toList "INFO"
      ++ (String.toList ", module=MAIN, " ++ (now ++ String.toList "]: ")))) := by
    simp only [List.mem_append, not_or]
    exact ⟨by decide, by decide, by decide, hnow, by decide⟩
  have s4 : replaceFirstLiteral
      (String.toList "[level=" ++ (String.toList "INFO"
        ++ (String.toList ", module=MAIN, " ++ (now ++ String.toList "]: $message"))))
      ('$' :: String.toList "message") (String.toList "hello")
      = String.toList "[level=INFO, module=MAIN, " ++ now ++ String.toList "]: hello" := by
    rw [e4]
    rw [show String.toList "[level=" ++ (String.toList "INFO"
          ++ (String.toList ", module=MAIN, " ++ (now ++ (String.toList "]: "
            ++ (('$' :: String.toList "message") ++ ([] : List Char))))))
        = (String.toList "[level=" ++ (String.toList "INFO"
          ++ (String.toList ", module=MAIN, " ++ (now ++ String.toList "]: "))))
          ++ (('$' :: String.toList "message") ++ ([] : List Char))
      from by simp [List.append_assoc]]
    rw [replaceFirstLiteral_mid '$' (String.toList "message") _ _ _ ha]
    rw [show String.toList "[level=INFO, module=MAIN, "
        = String.toList "[level=" ++ (String.toList "INFO" ++ String.toList ", module=MAIN, ")
      from by decide]
    rw [show String.toList "]: hello" = String.toList "]: " ++ String.toList "hello"
      from by decide]
    simp [List.append_assoc]
  simp only [formatStringSpec, loggerParameters, LogLevelStr, List.foldl_cons, List.foldl_nil]
  rw [s1, s2, s3, s4]

/-! ## Level dispatch of the returned logger objects -/

theorem Sync.createLogger_method {ε : Type} (sink : List Char → Except ε Unit)
    (moduleName : List Char) (thr : LogLevel) (format : List Char) (lvl : LogLevel) :
    (Sync.createLogger moduleName thr format sink).method lvl
      = Sync.filterAndLogMessage sink format thr moduleName lvl := by
  cases lvl <;> rfl

theorem Async.createAsyncLogger_method {ε : Type} (sink : List Char → Except ε Unit)
    (moduleName : List Char) (thr : LogLevel) (format : List Char) (lvl : LogLevel) :
    (Async.createAsyncLogger moduleName thr format sink).method lvl
      = Async.filterAndLogMessage sink format thr moduleName lvl := by
  cases lvl <;> rfl

/-! ## Claim theorems -/

/-- C1: for every configured threshold `T` and every level `L` in
`{ERROR=0, WARN=1, INFO=2, DEBUG=3, TRACE=4}`, calling the level-`L` method of
a logger created with threshold `T` invokes the output sink (emits) if and
only if `L <= T` numerically; for both the synchronous and the asynchronous
logger. -/
theorem c1_level_filter {ε₁ ε₂ : Type} (sink : List Char → Except ε₁ Unit)
    (asink : List Char → Except ε₂ Unit) (thr lvl : LogLevel)
    (moduleName format message now : List Char) :
    ((((Sync.createLogger moduleName thr format sink).method lvl) message now).sinkCalls ≠ []
      ↔ lvl.toNat ≤ thr.toNat)
    ∧ ((((Async.createAsyncLogger moduleName thr format asink).method lvl) message now).sinkCalls ≠ []
      ↔ lvl.toNat ≤ thr.toNat) := by
  rw [Sync.createLogger_method, Async.createAsyncLogger_method]
  constructor <;>
  · by_cases h : lvl.toNat ≤ thr.toNat <;>
      simp [Sync.filterAndLogMessage, Async.filterAndLogMessage,
            Sync.logFormattedMessage, Async.logFormattedMessage, h]

/-- C5: for every synchronous logger, a call at a level suppressed by the
filter (`L > threshold`) performs no side effect at all: the sink is not
invoked, no timestamp is computed (no clock read), and the call returns
normally having changed nothing. -/
theorem c5_suppressed_noop {ε : Type} (sink : List Char → Except ε Unit)
    (thr lvl : LogLevel) (moduleName format message now : List Char)
    (h : thr.toNat < lvl.toNat) :
    ((Sync.createLogger moduleName thr format sink).method lvl) message now
      = { clockReads := 0, sinkCalls := [], result := Except.ok () } := by
  rw [Sync.createLogger_method, Sync.filterAndLogMessage, if_neg (by omega)]

/-- C5 witness: a `debug` call on a synchronous logger configured at `INFO`
is a complete no-op. -/
theorem c5_suppressed_noop_witness :
    ((Sync.createLogger (String.toList "MAIN") LogLevel.info defaultLoggerFormat
        (fun _ => (Except.ok () : Except Unit Unit))).method LogLevel.debug)
      (String.toList "x") (String.toList "2021-07-14T19:20:44.156Z")
      = { clockReads := 0, sinkCalls := [], result := Except.ok () } :=
  c5_suppressed_noop _ _ _ _ _ _ _ (by decide)

/-- C6: for every non-suppressed synchronous call the output sink is invoked
exactly once, with exactly the formatter's result on the configured template
and the parameter mapping (module name, level display name from the fixed
table, call-time timestamp, message); and with the default template, module
`MAIN`, level `INFO`, message `hello` and a fixed timestamp `now` (timestamps
never contain a dollar sign) the argument is exactly
`[level=INFO, module=MAIN, <now>]: hello`. -/
theorem c6_sync_emission {ε : Type} (sink : List Char → Except ε Unit)
    (thr lvl : LogLevel) (moduleName format message now : List Char)
    (h : lvl.toNat ≤ thr.toNat) :
    (((Sync.createLogger moduleName thr format sink).method lvl) message now).sinkCalls
      = [formatString format (loggerParameters moduleName now lvl message)]
    ∧ ('$' ∉ now → moduleName = String.toList "MAIN" → lvl = LogLevel.info →
        format = defaultLoggerFormat → message = String.toList "hello" →
        (((Sync.createLogger moduleName thr format sink).method lvl) message now).sinkCalls
          = [String.toList "[level=INFO, module=MAIN, " ++ now ++ String.toList "]: hello"]) := by
  rw [Sync.createLogger_method]
  have hbase : (Sync.filterAndLogMessage sink format thr moduleName lvl message now).sinkCalls
      = [formatString format (loggerParameters moduleName now lvl message)] := by
    rw [Sync.filterAndLogMessage, if_pos h]
    rfl
  refine ⟨hbase, ?_⟩
  intro hnow h1 h2 h3 h4
  subst h1; subst h2; subst h3; subst h4
  rw [hbase]
  have hvals : ∀ kv ∈ loggerParameters (String.toList "MAIN") now LogLevel.info
      (String.toList "hello"), '$' ∉ kv.2 := by
    intro kv hkv
    simp only [loggerParameters, LogLevelStr, List.mem_cons, List.not_mem_nil, or_false] at hkv
    rcases hkv with rfl | rfl | rfl | rfl
    · decide
    · exact hnow
    · decide
    · decide
  rw [formatString_eq_spec _ _ hvals, formatStringSpec_default now hnow]

/-- C6 witness: the emitted line at a concrete ISO timestamp. -/
theorem c6_sync_emission_witness :
    (((Sync.createLogger (String.toList "MAIN") LogLevel.info defaultLoggerFormat
        (fun _ => (Except.ok () : Except Unit Unit))).method LogLevel.info)
      (String.toList "hello") (String.toList "2021-07-14T19:20:44.156Z")).sinkCalls
      = [String.toList "[level=INFO, module=MAIN, "
          ++ String.toList "2021-07-14T19:20:44.156Z" ++ String.toList "]: hello"] :=
  (c6_sync_emission _ _ _ _ _ _ _ (by decide)).2 (by decide) rfl rfl rfl rfl

/-- C7: sink failures pass through unmodified: for every non-suppressed call,
the synchronous call's outcome is exactly the sink's outcome on the formatted
message (a thrown error propagates uncaught), and the asynchronous call
returns exactly the deferred value produced by the sink. -/
theorem c7_sink_failure_passthrough {ε₁ ε₂ : Type} (sink : List Char → Except ε₁ Unit)
    (asink : List Char → Except ε₂ Unit) (thr lvl : LogLevel)
    (moduleName format message now : List Char) (h : lvl.toNat ≤ thr.toNat) :
    (((Sync.createLogger moduleName thr format sink).method lvl) message now).result
      = sink (formatString format (loggerParameters moduleName now lvl message))
    ∧ (((Async.createAsyncLogger moduleName thr format asink).method lvl) message now).result
      = asink (formatString format (loggerParameters moduleName now lvl message)) := by
  rw [Sync.createLogger_method, Async.createAsyncLogger_method,
      Sync.filterAndLogMessage, Async.filterAndLogMessage, if_pos h, if_pos h]
  exact ⟨rfl, rfl⟩

/-- C7 witness: an always-failing sink makes the call's outcome exactly that
failure, for both variants. -/
theorem c7_sink_failure_passthrough_witness :
    (((Sync.createLogger (String.toList "M") LogLevel.info defaultLoggerFormat
        (fun _ => (Except.error 7 : Except Nat Unit))).method LogLevel.error)
      (String.toList "x") (String.toList "T")).result = Except.error 7
    ∧ (((Async.createAsyncLogger (String.toList "M") LogLevel.info defaultLoggerFormat
        (fun _ => (Except.error 3 : Except Nat Unit))).method LogLevel.error)
      (String.toList "x") (String.toList "T")).result = Except.error 3 := by
  have h := c7_sink_failure_passthrough
      (fun _ => (Except.error 7 : Except Nat Unit))
      (fun _ => (Except.error 3 : Except Nat Unit))
      LogLevel.info LogLevel.error (String.toList "M") defaultLoggerFormat
      (String.toList "x") (String.toList "T") (by decide)
  exact ⟨h.1.trans rfl, h.2.trans rfl⟩

/-- C8: for every asynchronous logger, a call at a suppressed level
(`L > threshold`) returns an already-successfully-completed deferred value
immediately and never invokes the sink (and reads no clock). -/
theorem c8_async_suppressed {ε : Type} (asink : List Char → Except ε Unit)
    (thr lvl : LogLevel) (moduleName format message now : List Char)
    (h : thr.toNat < lvl.toNat) :
    ((Async.createAsyncLogger moduleName thr format asink).method lvl) message now
      = { clockReads := 0, sinkCalls := [], result := Except.ok () } := by
  rw [Async.createAsyncLogger_method, Async.filterAndLogMessage, if_neg (by omega)]

/-- C8 witness: a suppressed `trace` call on an async logger at `INFO` with an
always-failing sink still completes successfully with zero sink calls. -/
theorem c8_async_suppressed_witness :
    ((Async.createAsyncLogger (String.toList "MAIN") LogLevel.info defaultLoggerFormat
        (fun _ => (Except.error 5 : Except Nat Unit))).method LogLevel.trace)
      (String.toList "x") (String.toList "T")
      = { clockReads := 0, sinkCalls := [], result := Except.ok () } :=
  c8_async_suppressed _ _ _ _ _ _ _ (by decide)

/-- C9: `createLogger` with missing arguments defaults to module name
`GLOBAL`, threshold `INFO`, the default template
`[level=$logLevel, module=$moduleName, $formattedTimestamp]: $message`, and
the console-writing sink; `createAsyncLogger` has the same defaults for the
first three but no default sink (its sink parameter is not optional: its
type requires the caller to supply one). -/
theorem c9_defaults :
    createLogger none none none none
      = { moduleName := String.toList "GLOBAL", logLevel := LogLevel.info,
          format := defaultLoggerFormat, outputSink := consoleLoggerSink }
    ∧ defaultLoggerFormat
      = String.toList "[level=$logLevel, module=$moduleName, $formattedTimestamp]: $message"
    ∧ ∀ (ε : Type) (sink : List Char → Except ε Unit),
        createAsyncLogger ε none none none sink
          = { moduleName := String.toList "GLOBAL", logLevel := LogLevel.info,
              format := defaultLoggerFormat, outputSink := sink } :=
  ⟨rfl, rfl, fun _ _ => rfl⟩

/-- C10: the synchronous and asynchronous variants are
formatting-equivalent: for every configuration, level, message and fixed
timestamp, the level-`L` method of `createLogger`'s logger produces exactly
the same sink-invocation list (emission happens for one iff for the other,
and the passed strings are identical) as the corresponding method of
`createAsyncLogger`'s logger. -/
theorem c10_sync_async_equivalent {ε₁ ε₂ : Type} (sink : List Char → Except ε₁ Unit)
    (asink : List Char → Except ε₂ Unit) (thr lvl : LogLevel)
    (moduleName format message now : List Char) :
    (((Sync.createLogger moduleName thr format sink).method lvl) message now).sinkCalls
      = (((Async.createAsyncLogger moduleName thr format asink).method lvl) message now).sinkCalls := by
  rw [Sync.createLogger_method, Async.createAsyncLogger_method,
      Sync.filterAndLogMessage, Async.filterAndLogMessage]
  by_cases h : lvl.toNat ≤ thr.toNat
  · rw [if_pos h, if_pos h]
    rfl
  · rw [if_neg h, if_neg h]

/-- C2 counterexample: the claim says each key's first `$key` occurrence is
replaced with that key's string value.  With value `$$`, JavaScript
`replace` interprets the replacement string (`$$` inserts a single `$`), so
`formatString "$a" {a: "$$"}` yields `$`, not the literal value `$$` that
the claimed (literal-replacement) semantics `formatStringSpec` yields. -/
theorem c2_counterexample :
    formatString (String.toList "$a") [(String.toList "a", String.toList "$$")]
      = String.toList "$"
    ∧ formatStringSpec (String.toList "$a") [(String.toList "a", String.toList "$$")]
      = String.toList "$$"
    ∧ formatString (String.toList "$a") [(String.toList "a", String.toList "$$")]
      ≠ formatStringSpec (String.toList "$a") [(String.toList "a", String.toList "$$")] :=
  ⟨by decide, by decide, by decide⟩

/-- C2 amended: `formatString` processes the keys one at a time in iteration
order and for each key replaces the first occurrence of `$key` with the
key's value interpreted under JavaScript replacement-pattern rules; whenever
no value contains a `$` character this coincides with literal
first-occurrence replacement of the key's string value, and a template
containing the same placeholder twice with a single matching key has only
its first occurrence replaced, the second left verbatim. -/
theorem c2_first_occurrence_amended :
    (∀ (t : List Char) (ps : List (List Char × List Char)),
        (∀ kv ∈ ps, '$' ∉ kv.2) → formatString t ps = formatStringSpec t ps)
    ∧ formatString (String.toList "$message and $message")
        [(String.toList "message", String.toList "hi")]
      = String.toList "hi and $message" :=
  ⟨fun t ps h => formatString_eq_spec ps t h, by decide⟩

/-- C2 amended witness: a concrete instance of the equivalence with
dollar-free values. -/
theorem c2_first_occurrence_amended_witness :
    formatString (String.toList "a$b") [(String.toList "b", String.toList "Z")]
      = formatStringSpec (String.toList "a$b") [(String.toList "b", String.toList "Z")] :=
  c2_first_occurrence_amended.1 _ _ (by decide)

/-- C3 counterexample: the claim says a `$name` introduced into the string
by an earlier substitution is never substituted in a later pass.  But with
template `$a` and mapping `{a: "$b", b: "X"}` (iteration order `a` then
`b`), the pass for `a` produces `$b`, and the later pass for `b` then
replaces that introduced token, giving `X`. -/
theorem c3_counterexample :
    formatString (String.toList "$a") [(String.toList "a", String.toList "$b")]
      = String.toList "$b"
    ∧ formatString (String.toList "$a")
        [(String.toList "a", String.toList "$b"), (String.toList "b", String.toList "X")]
      = String.toList "X" :=
  ⟨by decide, by decide⟩

/-- C3 amended: substitution is a single non-recursive pass over the original
key list — each key is processed exactly once, in order, so a token
introduced by the final key's substitution (e.g. inside the message text,
the last logger parameter) is never re-scanned, and a token matching an
already-processed key is never re-substituted (the fixpoint example stays
`$a`); but a token for a *not-yet-processed* key introduced by an earlier
value is substituted by that key's later pass. -/
theorem c3_single_pass_amended :
    (∀ (t : List Char) (ps : List (List Char × List Char)) (k v : List Char),
        formatString t (ps ++ [(k, v)]) = replaceJS (formatString t ps) ('$' :: k) v)
    ∧ formatString (String.toList "$a")
        [(String.toList "a", String.toList "$b"), (String.toList "b", String.toList "$a")]
      = String.toList "$a" := by
  constructor
  · intro t ps k v
    rw [formatString, List.foldl_append]
    rfl
  · decide

/-- C4 counterexample: the claim says a token `$word` with no matching key
appears verbatim in the output.  But a key that is a proper prefix of the
word matches first: template `$ab` with mapping `{a: "X"}` yields `Xb`,
although no key `ab` exists. -/
theorem c4_counterexample :
    formatString (String.toList "$ab") [(String.toList "a", String.toList "X")]
      = String.toList "Xb"
    ∧ String.toList "Xb" ≠ String.toList "$ab" :=
  ⟨by decide, by decide⟩

/-- C4 amended: `formatString` is total (always returns a string).  A key
whose token `$key` does not occur in the current string when that key's
pass runs is a silent no-op — in particular, for a single-key mapping, a
key absent from the template leaves the template exactly unchanged.  A
token `$word` with no matching key is left verbatim provided no key of the
mapping matches a prefix of `word` and no substitution introduces a
matching occurrence; with the logger's fixed parameter set, a `$unknown`
token passes through intact. -/
theorem c4_mismatch_amended :
    (∀ (t k v : List Char), (∀ p q : List Char, t ≠ p ++ ('$' :: k) ++ q) →
        formatString t [(k, v)] = t)
    ∧ formatString (String.toList "$unknown and $message")
        (loggerParameters (String.toList "M") (String.toList "T") LogLevel.info
          (String.toList "hi"))
      = String.toList "$unknown and hi" := by
  constructor
  · intro t k v h
    have hnone := firstOccSplit_eq_none ('$' :: k) t h
    rw [formatString, List.foldl_cons, List.foldl_nil, replaceJS, hnone]
  · decide

/-- C4 amended witness: a single-key no-op on a concrete template that does
not contain the key's token. -/
theorem c4_mismatch_amended_witness :
    formatString (String.toList "plain text") [(String.toList "moduleName", String.toList "M")]
      = String.toList "plain text" :=
  c4_mismatch_amended.1 _ _ _ (by
    intro p q h
    have hl := congrArg List.length h
    simp [List.length_append] at hl
    omega)
